import Mathlib

/-
Verification of the value-formatting layer in `table_fu/formatting.py`.

The embedding models Python values occurring in this module (None, int,
float, str) by the inductive `PyVal`, with Python floats modelled as exact
rationals: every numeric literal appearing in the claims is exactly
representable, and the `%.Nf` fixed-point formatting is modelled by exact
rounding of the rational value.  Fallible Python code is embedded in
`Except PyErr`.
-/

set_option maxHeartbeats 1600000

namespace TableFu

/-- Python exception kinds that can arise in this module. -/
inductive PyErr where
  | valueError
  | typeError
  | keyError
  | nameError
deriving DecidableEq

/-- Python values handled by the formatting transforms: `None`, `int`,
`float` (modelled as an exact rational) and `str`. -/
inductive PyVal where
  | none : PyVal
  | int : Int → PyVal
  | float : Rat → PyVal
  | str : String → PyVal
deriving DecidableEq

/-- Python truthiness (`bool(value)`) for the modelled values: `None`, `0`,
`0.0` and the empty string are falsy.  (A rational is zero exactly when its
reduced numerator is zero.) -/
def pyTruthy : PyVal → Bool
  | .none => false
  | .int n => n != 0
  | .float q => q.num != 0
  | .str s => s != ""

/-- Powers of ten. -/
def pow10 : Nat → Nat
  | 0 => 1
  | n + 1 => 10 * pow10 n

/-- The character for the decimal digit `d` (`d < 10`). -/
def digitChar (d : Nat) : Char := Char.ofNat (48 + d)

/-- Fuelled decimal-digit expansion (most significant digit first). -/
def natDigitsAux : Nat → Nat → List Char
  | 0, _ => []
  | fuel + 1, n =>
    if n < 10 then [digitChar n]
    else natDigitsAux fuel (n / 10) ++ [digitChar (n % 10)]

/-- Decimal digit characters of a natural number, most significant first.
Models Python `str` on a nonnegative `int` (fuel `n + 1` always suffices,
since the fuelled recursion divides by 10 at each step). -/
def natDigits (n : Nat) : List Char := natDigitsAux (n + 1) n

/-- Models Python `str` on an `int`: decimal digits, with a leading `-`
for negative numbers. -/
def pyIntStr : Int → String
  | .ofNat m => String.mk (natDigits m)
  | .negSucc m => String.mk ('-' :: natDigits (m + 1))

/-- Numeric value of a list of decimal digit characters. -/
def digitsVal (ds : List Char) : Nat :=
  ds.foldl (fun a c => a * 10 + (c.toNat - 48)) 0

/-- Parse an unsigned decimal literal (`123`, `123.45`, `123.`, `.45`).
Part of the model of Python `float(str)`.  The value is assembled with
`mkRat` so that it evaluates to a normalized rational. -/
def parseFloatMag (cs : List Char) : Option Rat :=
  let ip := cs.takeWhile Char.isDigit
  let rest := cs.dropWhile Char.isDigit
  match rest with
  | [] => if ip.isEmpty then Option.none else some (mkRat (digitsVal ip : Int) 1)
  | '.' :: fr =>
    let fd := fr.takeWhile Char.isDigit
    let rest2 := fr.dropWhile Char.isDigit
    if rest2.isEmpty = false then Option.none
    else if ip.isEmpty && fd.isEmpty then Option.none
    else
      some (mkRat ((digitsVal ip * pow10 fd.length + digitsVal fd : Nat) : Int)
        (pow10 fd.length))
  | _ => Option.none

/-- Negation of a rational, computed on the numerator (used by the parser
for negative literals). -/
def ratNeg (q : Rat) : Rat := mkRat (-q.num) q.den

/-- Models Python `float` applied to a string: an optional sign followed by
a decimal literal.  (Exotic accepted forms such as exponents, `inf`/`nan`
and surrounding whitespace do not occur in this module's inputs and are
treated as parse failures.) -/
def parseFloat (s : String) : Option Rat :=
  match s.data with
  | '-' :: rest => (parseFloatMag rest).map ratNeg
  | '+' :: rest => parseFloatMag rest
  | _ => parseFloatMag s.data

/-- Models Python `float(value)`: ints and floats convert, strings are
parsed (raising `ValueError` on failure), and `None` raises `TypeError`. -/
def pyFloat : PyVal → Except PyErr Rat
  | .none => .error .typeError
  | .int n => .ok (mkRat n 1)
  | .float q => .ok q
  | .str s =>
    match parseFloat s with
    | some q => .ok q
    | Option.none => .error .valueError

/-- The magnitude of `q` scaled by `10 ^ p` and rounded to the nearest
natural number, ties to even (the rounding used by Python's fixed-point
formatting on exactly representable values).  Computed on the reduced
numerator and denominator. -/
def rndScaledAbs (q : Rat) (p : Nat) : Nat :=
  let a := q.num.natAbs * pow10 p
  let b := q.den
  let fl := a / b
  let r := a % b
  if 2 * r < b then fl
  else if b < 2 * r then fl + 1
  else if fl % 2 = 0 then fl else fl + 1

/-- Left-pad a digit list with `0` characters up to length `n`. -/
def padZeros (ds : List Char) (n : Nat) : List Char :=
  List.replicate (n - ds.length) '0' ++ ds

/-- Models the Python expression `'%.<n>f' % q`: fixed-point decimal
rendering of `q` with exactly `n` digits after the point — the rounded
scaled magnitude, zero-padded and split `n` places from the right, with a
leading `-` for negative values. -/
def formatFixed (q : Rat) (n : Nat) : String :=
  let m := rndScaledAbs q n
  let ds := padZeros (natDigits m) (n + 1)
  let ip := ds.take (ds.length - n)
  let fp := ds.drop (ds.length - n)
  String.mk ((if q.num < 0 then ['-'] else []) ++ (if n = 0 then ip else ip ++ ('.' :: fp)))

/-- Embeds `_saferound(value, decimal_places)`: converts `value` with
`float`, returning `''` when that raises `ValueError`, and otherwise
formats with fixed decimal places.  A `TypeError` (e.g. from `None`) is
not caught and propagates. -/
def _saferound (value : PyVal) (decimal_places : Nat) : Except PyErr String :=
  match pyFloat value with
  | .ok f => .ok (formatFixed f decimal_places)
  | .error .valueError => .ok ""
  | .error e => .error e

/-- One application of the anchored substitution
`re.sub("^(-?\d+)(\d{3})", "\g<1>,\g<2>", s)` used by `intcomma`:
when the string starts with an optional `-` followed by at least four
decimal digits, a comma is inserted before the last three digits of that
leading digit run; otherwise the string is unchanged. -/
def stepCore (cs : List Char) : List Char :=
  let sign : List Char := if cs.head? = some '-' then ['-'] else []
  let rest : List Char := if cs.head? = some '-' then cs.tail else cs
  let digs := rest.takeWhile Char.isDigit
  let after := rest.dropWhile Char.isDigit
  if 4 ≤ digs.length then
    sign ++ (digs.take (digs.length - 3) ++ (',' :: (digs.drop (digs.length - 3) ++ after)))
  else cs

/-- The substitution step lifted to strings. -/
def intcommaStep (s : String) : String := String.mk (stepCore s.data)

/-- Fuelled iteration of `intcommaStep` to its fixed point (models the
self-recursion of `intcomma`, which recurses while the substitution keeps
changing the string).  Each productive step shortens the leading digit run
by three, so fuel `s.length` always suffices. -/
def intcommaAux : Nat → String → String
  | 0, s => s
  | fuel + 1, s =>
    if intcommaStep s = s then s else intcommaAux fuel (intcommaStep s)

/-- Embeds `intcomma(value)` on a string argument (`str(value)` is the
identity there): inserts a grouping comma every three digits of the leading
integer part, re-applying the substitution until it no longer changes the
string. -/
def intcomma (s : String) : String := intcommaAux s.length s

/-- Embeds `dollars(value, decimal_places=2)`: falsy values are replaced by
`0`, the value is rounded with `_saferound`, an empty rounding result gives
the sentinel `"N/A"`, and otherwise a `$` is prepended to the
comma-grouped figure. -/
def dollars (value : PyVal) (decimal_places : Nat) : Except PyErr String :=
  let value := if pyTruthy value then value else PyVal.int 0
  match _saferound value decimal_places with
  | .error e => .error e
  | .ok s => if s = "" then .ok "N/A" else .ok ("$" ++ intcomma s)

/-- Multiplication by `100`, computed on the numerator (`mul100 q = q * 100`
is proved below as `mul100_eq`). -/
def mul100 (q : Rat) : Rat := mkRat (q.num * 100) q.den

/-- Embeds `percentage(value, decimal_places=1, multiply=True)`.  The
`float(value)` conversion is not guarded: its error propagates. -/
def percentage (value : PyVal) (decimal_places : Nat) (multiply : Bool) :
    Except PyErr String :=
  match pyFloat value with
  | .error e => .error e
  | .ok f0 =>
    let f := if multiply then mul100 f0 else f0
    match _saferound (PyVal.float f) decimal_places with
    | .error e => .error e
    | .ok s => .ok (s ++ "%")

/-- Embeds `percent_change(value, decimal_places=1, multiply=True)`: a
`ValueError` from the conversion is turned into `"N/A"`, and a `+` is
prepended exactly when the (post-multiply) value is strictly positive
(a rational is strictly positive exactly when its reduced numerator is). -/
def percent_change (value : PyVal) (decimal_places : Nat) (multiply : Bool) :
    Except PyErr String :=
  match pyFloat value with
  | .error PyErr.valueError => .ok "N/A"
  | .error e => .error e
  | .ok f0 =>
    let f := if multiply then mul100 f0 else f0
    match _saferound (PyVal.float f) decimal_places with
    | .error e => .error e
    | .ok s => if 0 < f.num then .ok ("+" ++ s ++ "%") else .ok (s ++ "%")

/-- Embeds `ratio(value, precision=0)`.  Its body is
`try: f = float(value) / except ValueError: return 'N/A'` followed by
`return _saferound(f, decimal_places) + ':1'`; the name `decimal_places`
is unbound in `ratio` (the parameter is called `precision`), so evaluating
the return expression raises `NameError` before anything else runs. -/
def ratio (value : PyVal) (precision : Nat) : Except PyErr String :=
  match pyFloat value with
  | .error .valueError => .ok "N/A"
  | .error e => .error e
  | .ok _f => .error PyErr.nameError

/-- The image template of `bubble`: the `%(name)s` and `%(icon)s` slots of
`"<img alt='%(name)s' title='%(name)s' class='bubble' src='%(icon)s'>"`
filled in. -/
def bubbleImg (name icon : String) : String :=
  "<img alt=\x27" ++ name ++ "\x27 title=\x27" ++ name ++
    "\x27 class=\x27bubble\x27 src=\x27" ++ icon ++ "\x27>"

/-- Embeds `bubble(value, yes_icon, no_icon, empty)`: compares the value
case-sensitively against the literals `'Y'` and `'N'`. -/
def bubble (value yes_icon no_icon empty : String) : String :=
  if value = "Y" then bubbleImg "Yes" yes_icon
  else if value = "N" then bubbleImg "No" no_icon
  else empty

/-- Python default for the `yes_icon` parameter of `bubble`. -/
def bubbleYesDefault : String := "/media/img/bubble_yes.png"

/-- Python default for the `no_icon` parameter of `bubble`. -/
def bubbleNoDefault : String := "/media/img/bubble_no.png"

/-- Python default for the `empty` parameters of `bubble` and `tribubble`. -/
def mdash : String := "&mdash;"

/-- ASCII lowercasing of one character (`A`–`Z` map to `a`–`z`). -/
def pyCharLower (c : Char) : Char :=
  if c.isUpper then Char.ofNat (c.toNat + 32) else c

/-- Models Python `str.lower()` on the ASCII inputs of this module. -/
def pyLower (s : String) : String := String.mk (s.data.map pyCharLower)

/-- Embeds `checkbox(value, yes_icon, no_icon)`: lowercases the value
before comparing against `'y'` and `'n'`, returning `''` otherwise. -/
def checkbox (value yes_icon no_icon : String) : String :=
  if pyLower value = "y" then yes_icon
  else if pyLower value = "n" then no_icon
  else ""

/-- Python default for the `yes_icon` parameter of `checkbox`. -/
def checkboxYesDefault : String :=
  "<img class=\x22vote\x22 src=\x22/media/img/checkbox_yes.png\x22>"

/-- Python default for the `no_icon` parameter of `checkbox`. -/
def checkboxNoDefault : String :=
  "<img class=\x22vote\x22 src=\x22/media/img/checkbox_no.png\x22>"

/-- The image template of `tribubble` (its `%(icon)s` slot filled in; the
template has no `%(name)s` slot). -/
def triImg (icon : String) : String :=
  "<img class=\x27bubble\x27 src=\x27" ++ icon ++ "\x27>"

/-- Embeds `tribubble(value, yes_icon, partly_icon, no_icon, empty)`:
lowercases the value before comparing against `'y'`, `'p'` and `'n'`. -/
def tribubble (value yes_icon partly_icon no_icon empty : String) : String :=
  if pyLower value = "y" then triImg yes_icon
  else if pyLower value = "p" then triImg partly_icon
  else if pyLower value = "n" then triImg no_icon
  else empty

/-- Python default for the `yes_icon` parameter of `tribubble`. -/
def tribubbleYesDefault : String := "/media/img/tribubble_yes.png"

/-- Python default for the `partly_icon` parameter of `tribubble`. -/
def tribubblePartlyDefault : String := "/media/img/tribubble_partly.png"

/-- Python default for the `no_icon` parameter of `tribubble`. -/
def tribubbleNoDefault : String := "/media/img/tribubble_no.png"

/-- A Python function object as stored in a `Formatter`: its identity (for
use as a dictionary key), its `__name__`, and its behaviour on a value plus
extra positional and keyword arguments. -/
structure PyFunc where
  id : Nat
  name : String
  apply : PyVal → List PyVal → List (String × PyVal) → Except PyErr PyVal

/-- A key of the `_filters` dictionary: normally a string, but Python also
admits a function object (identified here by its `id`) when `register` is
called with a callable name and an explicit function. -/
inductive Key where
  | str : String → Key
  | fnKey : Nat → Key
  | pynone : Key
deriving DecidableEq

/-- The `_filters` dictionary of a `Formatter`, as a map from keys to stored
entries; a stored entry is itself optional because `register(name)` with no
function stores Python `None` under the name. -/
abbrev Filters := Key → Option (Option PyFunc)

/-- The `name` argument of `register`/`unregister`: omitted (`None`), a
string, or a callable. -/
inductive NameArg where
  | omitted : NameArg
  | str : String → NameArg
  | fn : PyFunc → NameArg

/-- Python truthiness of the `name` argument: `None` is falsy, a string is
falsy exactly when empty, a function object is always truthy. -/
def nameTruthy : NameArg → Bool
  | .omitted => false
  | .str s => s != ""
  | .fn _ => true

/-- Whether the `name` argument is callable. -/
def nameCallable : NameArg → Bool
  | .fn _ => true
  | _ => false

/-- The dictionary key denoted by a `name` argument. -/
def keyOfName : NameArg → Key
  | .omitted => Key.pynone
  | .str s => Key.str s
  | .fn g => Key.fnKey g.id

/-- The second argument of `Formatter.__call__`: a callable, or a name to
be looked up. -/
inductive FuncArg where
  | fn : PyFunc → FuncArg
  | name : String → FuncArg

/-- Embeds `Formatter.__call__(value, func, *args, **kwargs)`: a callable
is invoked directly; otherwise the name is looked up in `_filters`
(`KeyError` when absent) and the stored entry is called (`TypeError` when
the stored entry is `None`, which is not callable). -/
def Formatter.call (fs : Filters) (value : PyVal) (func : FuncArg)
    (args : List PyVal) (kwargs : List (String × PyVal)) : Except PyErr PyVal :=
  match func with
  | .fn g => g.apply value args kwargs
  | .name s =>
    match fs (Key.str s) with
    | Option.none => .error PyErr.keyError
    | some Option.none => .error PyErr.typeError
    | some (some g) => g.apply value args kwargs

/-- Embeds `Formatter.register(name=None, func=None)`: returns unchanged
when both arguments are falsy; a bare callable is stored under its own
`__name__`; a bare function keyword is stored under its `__name__`; and
otherwise `_filters[name] = func` stores whatever was passed (including
`None`). -/
def Formatter.register (fs : Filters) (name : NameArg) (func : Option PyFunc) :
    Filters :=
  if func.isNone && !(nameTruthy name) then fs
  else
    let p : NameArg × Option PyFunc :=
      if nameCallable name && func.isNone then
        match name with
        | .fn g => (NameArg.str g.name, some g)
        | x => (x, func)
      else if func.isSome && !(nameTruthy name) then
        match func with
        | some f => (NameArg.str f.name, some f)
        | x => (name, x)
      else (name, func)
    fun k => if k = keyOfName p.1 then some p.2 else fs k

/-- Embeds `Formatter.unregister(name=None, func=None)`: returns unchanged
when both arguments are falsy; a falsy name is replaced by the function's
`__name__`; an absent key is a no-op; otherwise the entry is deleted. -/
def Formatter.unregister (fs : Filters) (name : NameArg) (func : Option PyFunc) :
    Filters :=
  if func.isNone && !(nameTruthy name) then fs
  else
    let key : Key :=
      if !(nameTruthy name) then
        match func with
        | some f => Key.str f.name
        | Option.none => keyOfName name
      else keyOfName name
    match fs key with
    | Option.none => fs
    | some _ => fun k => if k = key then Option.none else fs k

/-- The Python expression `value * 2` on the modelled values (string
repetition for `str`, `TypeError` for `None`). -/
def pyMulTwo : PyVal → Except PyErr PyVal
  | .int n => .ok (.int (2 * n))
  | .float q => .ok (.float (mkRat (2 * q.num) q.den))
  | .str s => .ok (.str (s ++ s))
  | .none => .error PyErr.typeError

/-- The test function `f(v) = v * 2` of the registry claim, named
`"double"`. -/
def doubleFn : PyFunc :=
  { id := 0, name := "double", apply := fun v _args _kwargs => pyMulTwo v }

/-- Spec-side statement of digit grouping: a comma is inserted before the
last three digits, recursively on the remaining leading digits, so the
result carries a grouping comma every three digits from the right. -/
def group3 (ds : List Char) : List Char :=
  if _h : ds.length ≤ 3 then ds
  else group3 (ds.take (ds.length - 3)) ++ (',' :: ds.drop (ds.length - 3))
termination_by ds.length
decreasing_by
  simp only [List.length_take]
  omega

/-- An optional leading minus sign. -/
def maybeSign (b : Bool) (l : List Char) : List Char := if b then '-' :: l else l

/-- The list does not start with a decimal digit (in particular when it is
empty). -/
def noDigitHead : List Char → Prop
  | [] => True
  | c :: _ => c.isDigit = false

/-- The characters produced by `digitChar` on `0`–`9` are decimal digits. -/
theorem digitChar_isDigit : ∀ d : Nat, d < 10 → (digitChar d).isDigit = true := by
  decide

/-- With enough fuel, `natDigitsAux` produces a nonempty list of decimal
digits. -/
theorem natDigitsAux_spec :
    ∀ (fuel n : Nat), n < fuel →
      natDigitsAux fuel n ≠ [] ∧ ∀ c ∈ natDigitsAux fuel n, c.isDigit = true := by
  intro fuel
  induction fuel with
  | zero => intro n h; omega
  | succ f ih =>
    intro n _h
    by_cases h10 : n < 10
    · refine ⟨by simp [natDigitsAux, h10], ?_⟩
      intro c hc
      simp only [natDigitsAux, if_pos h10, List.mem_singleton] at hc
      exact hc ▸ digitChar_isDigit n h10
    · have hdiv : n / 10 < f := by
        have := Nat.div_lt_self (by omega : 0 < n) (by omega : 1 < 10)
        omega
      obtain ⟨hne, hds⟩ := ih (n / 10) hdiv
      constructor
      · simp [natDigitsAux, h10]
      · intro c hc
        simp only [natDigitsAux, if_neg h10, List.mem_append, List.mem_singleton] at hc
        rcases hc with hc | hc
        · exact hds c hc
        · exact hc ▸ digitChar_isDigit (n % 10) (Nat.mod_lt n (by omega))

/-- `natDigits` is never empty. -/
theorem natDigits_ne_nil (n : Nat) : natDigits n ≠ [] :=
  (natDigitsAux_spec (n + 1) n (Nat.lt_succ_self n)).1

/-- Every character of `natDigits` is a decimal digit. -/
theorem natDigits_digits (n : Nat) : ∀ c ∈ natDigits n, c.isDigit = true :=
  (natDigitsAux_spec (n + 1) n (Nat.lt_succ_self n)).2

/-- `takeWhile isDigit` on a digit run followed by a non-digit-headed tail
returns exactly the run. -/
theorem takeWhile_digits (ds t : List Char) (hds : ∀ c ∈ ds, c.isDigit = true)
    (ht : noDigitHead t) : (ds ++ t).takeWhile Char.isDigit = ds := by
  induction ds with
  | nil =>
    cases t with
    | nil => rfl
    | cons c r =>
      simp only [List.nil_append, List.takeWhile]
      have hc : c.isDigit = false := ht
      simp [hc]
  | cons d ds ih =>
    have hd : d.isDigit = true := hds d (by simp)
    simp only [List.cons_append, List.takeWhile, hd, List.append_eq]
    rw [ih (fun c hc => hds c (by simp [hc]))]

/-- `dropWhile isDigit` on a digit run followed by a non-digit-headed tail
returns exactly the tail. -/
theorem dropWhile_digits (ds t : List Char) (hds : ∀ c ∈ ds, c.isDigit = true)
    (ht : noDigitHead t) : (ds ++ t).dropWhile Char.isDigit = t := by
  induction ds with
  | nil =>
    cases t with
    | nil => rfl
    | cons c r =>
      simp only [List.nil_append, List.dropWhile]
      have hc : c.isDigit = false := ht
      simp [hc]
  | cons d ds ih =>
    have hd : d.isDigit = true := hds d (by simp)
    simp only [List.cons_append, List.dropWhile, hd]
    exact ih (fun c hc => hds c (by simp [hc]))

/-- Characterization of one `intcomma` substitution step on a string of
shape optional-sign, digit run, non-digit tail: with at least four leading
digits, a comma is inserted before the last three of them; otherwise the
string is unchanged. -/
theorem stepCore_digits (b : Bool) (ds t : List Char) (hne : ds ≠ [])
    (hds : ∀ c ∈ ds, c.isDigit = true) (ht : noDigitHead t) :
    stepCore (maybeSign b (ds ++ t)) =
      if 4 ≤ ds.length then
        maybeSign b (ds.take (ds.length - 3) ++ (',' :: (ds.drop (ds.length - 3) ++ t)))
      else maybeSign b (ds ++ t) := by
  obtain ⟨d, ds', rfl⟩ : ∃ d ds', ds = d :: ds' := by
    cases ds with
    | nil => exact absurd rfl hne
    | cons d ds' => exact ⟨d, ds', rfl⟩
  have hd : d.isDigit = true := hds d (by simp)
  have hdm : ¬(d = '-') := by
    intro he
    rw [he] at hd
    exact absurd hd (by decide)
  cases b with
  | true =>
    show stepCore ('-' :: ((d :: ds') ++ t)) = _
    simp only [stepCore, List.head?_cons, Option.some.injEq, List.tail_cons,
      eq_self_iff_true, if_true]
    rw [takeWhile_digits (d :: ds') t hds ht, dropWhile_digits (d :: ds') t hds ht]
    split
    · rfl
    · rfl
  | false =>
    show stepCore ((d :: ds') ++ t) = _
    simp only [stepCore, List.cons_append, List.head?_cons, Option.some.injEq, hdm,
      if_false, List.tail_cons]
    rw [← List.cons_append d ds' t,
      takeWhile_digits (d :: ds') t hds ht, dropWhile_digits (d :: ds') t hds ht]
    split
    · rfl
    · rfl

/-- `group3` leaves runs of at most three digits unchanged. -/
theorem group3_of_le (ds : List Char) (h : ds.length ≤ 3) : group3 ds = ds := by
  rw [group3]
  exact dif_pos h

/-- `group3` on at least four digits splits off the last three. -/
theorem group3_of_ge (ds : List Char) (h : 4 ≤ ds.length) :
    group3 ds = group3 (ds.take (ds.length - 3)) ++ (',' :: ds.drop (ds.length - 3)) := by
  rw [group3]
  exact dif_neg (by omega)

/-- Lengths of sign-extended lists. -/
theorem maybeSign_length (b : Bool) (l : List Char) :
    (maybeSign b l).length = (if b then 1 else 0) + l.length := by
  cases b <;> simp [maybeSign] <;> omega

/-- The fuelled fixed-point iteration of the substitution step computes the
`group3` grouping of the leading digit run, provided the fuel is at least
the length of that run. -/
theorem intcommaAux_digits :
    ∀ (fuel : Nat) (b : Bool) (ds t : List Char), ds ≠ [] →
      (∀ c ∈ ds, c.isDigit = true) → noDigitHead t → ds.length ≤ fuel →
      intcommaAux fuel (String.mk (maybeSign b (ds ++ t))) =
        String.mk (maybeSign b (group3 ds ++ t)) := by
  intro fuel
  induction fuel with
  | zero =>
    intro b ds t hne hds ht hlen
    cases ds with
    | nil => exact absurd rfl hne
    | cons d ds' => simp at hlen
  | succ f ih =>
    intro b ds t hne hds ht hlen
    have hstep := stepCore_digits b ds t hne hds ht
    by_cases h4 : 4 ≤ ds.length
    · rw [if_pos h4] at hstep
      have hlt : (ds.take (ds.length - 3)).length = ds.length - 3 := by
        rw [List.length_take]
        omega
      have hstep' : intcommaStep (String.mk (maybeSign b (ds ++ t))) =
          String.mk (maybeSign b
            (ds.take (ds.length - 3) ++ (',' :: (ds.drop (ds.length - 3) ++ t)))) :=
        congrArg String.mk hstep
      have hneq : intcommaStep (String.mk (maybeSign b (ds ++ t))) ≠
          String.mk (maybeSign b (ds ++ t)) := by
        intro he
        have hlen2 := congrArg (fun s : String => s.data.length) (hstep' ▸ he)
        simp only [maybeSign_length, List.length_append, List.length_cons, hlt,
          List.length_drop] at hlen2
        omega
      rw [intcommaAux, if_neg hneq, hstep']
      have hrec := ih b (ds.take (ds.length - 3)) (',' :: (ds.drop (ds.length - 3) ++ t))
        (by
          intro he
          have := congrArg List.length he
          simp only [hlt, List.length_nil] at this
          omega)
        (fun c hc => hds c (List.take_subset _ _ hc))
        (by
          show (',' : Char).isDigit = false
          decide)
        (by omega)
      rw [hrec, group3_of_ge ds h4]
      simp [List.append_assoc]
    · rw [if_neg h4] at hstep
      have hstep' : intcommaStep (String.mk (maybeSign b (ds ++ t))) =
          String.mk (maybeSign b (ds ++ t)) := congrArg String.mk hstep
      rw [intcommaAux, if_pos hstep', group3_of_le ds (by omega)]

/-- `intcomma` on a string of shape optional-sign, digit run, non-digit
tail groups the digit run with commas every three digits from the right
and changes nothing else. -/
theorem intcomma_digits (b : Bool) (ds t : List Char) (hne : ds ≠ [])
    (hds : ∀ c ∈ ds, c.isDigit = true) (ht : noDigitHead t) :
    intcomma (String.mk (maybeSign b (ds ++ t))) =
      String.mk (maybeSign b (group3 ds ++ t)) := by
  refine intcommaAux_digits _ b ds t hne hds ht ?_
  show ds.length ≤ (maybeSign b (ds ++ t)).length
  rw [maybeSign_length, List.length_append]
  omega

/-- A `group3` result followed by a non-digit tail again has the shape
digit run (of length at most three) followed by a non-digit tail. -/
theorem group3_decomp :
    ∀ (bound : Nat) (ds t : List Char), ds.length ≤ bound → ds ≠ [] →
      (∀ c ∈ ds, c.isDigit = true) → noDigitHead t →
      ∃ es u, group3 ds ++ t = es ++ u ∧ es ≠ [] ∧
        (∀ c ∈ es, c.isDigit = true) ∧ noDigitHead u ∧ es.length ≤ 3 := by
  intro bound
  induction bound with
  | zero =>
    intro ds t hb hne _ _
    cases ds with
    | nil => exact absurd rfl hne
    | cons d ds' => simp at hb
  | succ m ih =>
    intro ds t hb hne hds ht
    by_cases h3 : ds.length ≤ 3
    · exact ⟨ds, t, by rw [group3_of_le ds h3], hne, hds, ht, h3⟩
    · rw [group3_of_ge ds (by omega)]
      have hlt : (ds.take (ds.length - 3)).length = ds.length - 3 := by
        rw [List.length_take]
        omega
      obtain ⟨es, u, heq, hne', hds', ht', h3'⟩ :=
        ih (ds.take (ds.length - 3)) (',' :: (ds.drop (ds.length - 3) ++ t))
          (by omega)
          (by
            intro he
            have := congrArg List.length he
            simp only [hlt, List.length_nil] at this
            omega)
          (fun c hc => hds c (List.take_subset _ _ hc))
          (by
            show (',' : Char).isDigit = false
            decide)
      exact ⟨es, u, by rw [← heq]; simp [List.append_assoc], hne', hds', ht', h3'⟩

/-- `intcomma` leaves an already grouped string unchanged (the leading
digit run of a grouped string has at most three digits, so the
substitution step no longer fires). -/
theorem intcomma_group3_fix (b : Bool) (ds t : List Char) (hne : ds ≠ [])
    (hds : ∀ c ∈ ds, c.isDigit = true) (ht : noDigitHead t) :
    intcomma (String.mk (maybeSign b (group3 ds ++ t))) =
      String.mk (maybeSign b (group3 ds ++ t)) := by
  obtain ⟨es, u, heq, hne', hds', ht', h3'⟩ :=
    group3_decomp ds.length ds t le_rfl hne hds ht
  rw [heq, intcomma_digits b es u hne' hds' ht', group3_of_le es h3']

/-- The numerator-level multiplication used in the embedding agrees with
rational multiplication by `100`. -/
theorem mul100_eq (q : Rat) : mul100 q = q * 100 := by
  rw [mul100, Rat.mkRat_eq_div]
  push_cast
  rw [mul_div_right_comm, Rat.num_div_den]

/-- The numerator-level negation used by the parser agrees with rational
negation. -/
theorem ratNeg_eq (q : Rat) : ratNeg q = -q := by
  rw [ratNeg, Rat.mkRat_eq_div]
  push_cast
  rw [neg_div, Rat.num_div_den]

/-- The conversion of an `int` by `pyFloat` is the integer cast. -/
theorem pyFloat_int (n : Int) : pyFloat (PyVal.int n) = .ok (n : Rat) := by
  rw [pyFloat, Rat.mkRat_one]

/-- C1 (counterexample): `dollars(0)` with the default two decimal places
does not return the sentinel `"N/A"`: the falsy value is replaced by `0`,
`_saferound` yields the truthy string `"0.00"`, and the result is
`"$0.00"`. -/
theorem dollars_zero_not_na : dollars (PyVal.int 0) 2 ≠ Except.ok "N/A" := by
  intro h
  have e : dollars (PyVal.int 0) 2 = Except.ok "$0.00" := rfl
  rw [e] at h
  exact absurd (Except.ok.inj h) (by decide)

/-- C1 (amended): for the falsy inputs `0`, the empty string and `None`,
`dollars` with the default two decimal places returns `"$0.00"` (the falsy
value is first replaced by `0` and then formatted); the `"N/A"` sentinel is
produced only when rounding a truthy non-numeric value yields the empty
string, as for the input `"abc"`. -/
theorem dollars_falsy_formats_zero :
    dollars (PyVal.int 0) 2 = .ok "$0.00" ∧
    dollars (PyVal.str "") 2 = .ok "$0.00" ∧
    dollars PyVal.none 2 = .ok "$0.00" ∧
    dollars (PyVal.str "abc") 2 = .ok "N/A" :=
  ⟨rfl, rfl, rfl, rfl⟩

/-- C2: on a value convertible to a number, `ratio` does not produce the
formatted `X:1` string: its return expression evaluates the unbound name
`decimal_places` (the parameter is called `precision`), raising
`NameError`; only the non-numeric path returns `"N/A"`. -/
theorem ratio_numeric_name_error :
    ratio (PyVal.float (mkRat 2 1)) 0 = .error PyErr.nameError ∧
    ratio (PyVal.str "abc") 0 = .ok "N/A" :=
  ⟨rfl, rfl⟩

/-- C3: evaluation of the claimed examples. `dollars(1234.5, 2)` is
`"$1,234.50"` as claimed, but `dollars(1200)` with the default two decimal
places is `"$1,200.00"`, not the `"$1,200"` stated by the claim and by the
`Formatter` docstring's own doctest. -/
theorem dollars_examples_eval :
    dollars (PyVal.int 1200) 2 = .ok "$1,200.00" ∧
    dollars (PyVal.float (mkRat 2469 2)) 2 = .ok "$1,234.50" :=
  ⟨rfl, rfl⟩

/-- C4: `percentage` propagates the conversion error on non-numeric input
(it never returns the `"N/A"` sentinel), and on numeric input returns the
value, multiplied by 100 unless `multiply` is disabled, fixed-point
formatted with `decimal_places` digits and a trailing `%`. -/
theorem percentage_unguarded :
    (∀ (s : String) (dp : Nat) (mult : Bool), parseFloat s = Option.none →
      percentage (PyVal.str s) dp mult = .error PyErr.valueError) ∧
    (∀ (v : PyVal) (q : Rat) (dp : Nat) (mult : Bool), pyFloat v = .ok q →
      percentage v dp mult =
        .ok (formatFixed (if mult then mul100 q else q) dp ++ "%")) := by
  constructor
  · intro s dp mult h
    simp [percentage, pyFloat, h]
  · intro v q dp mult h
    simp only [percentage, h]
    simp only [_saferound, pyFloat]

/-- Witness for C4 at concrete inputs: `percentage("x")` raises
`ValueError` and `percentage(0.5)` is `"50.0%"`. -/
theorem percentage_unguarded_witness :
    percentage (PyVal.str "x") 1 true = .error PyErr.valueError ∧
    percentage (PyVal.float (mkRat 1 2)) 1 true = .ok "50.0%" := by
  constructor
  · exact percentage_unguarded.1 "x" 1 true rfl
  · exact (percentage_unguarded.2 (PyVal.float (mkRat 1 2)) (mkRat 1 2) 1 true rfl).trans rfl

/-- C5: after registering `doubleFn` under the name `"double"` (on any
registry state), invoking the name `"double"` on `21` returns `42`; after a
subsequent `unregister("double")`, invoking the name fails with the lookup
error `KeyError`. -/
theorem register_invoke_unregister :
    ∀ fs : Filters,
      Formatter.call (Formatter.register fs (NameArg.str "double") (some doubleFn))
        (PyVal.int 21) (FuncArg.name "double") [] [] = .ok (PyVal.int 42) ∧
      Formatter.call
        (Formatter.unregister
          (Formatter.register fs (NameArg.str "double") (some doubleFn))
          (NameArg.str "double") Option.none)
        (PyVal.int 21) (FuncArg.name "double") [] [] = .error PyErr.keyError :=
  fun _ => ⟨rfl, rfl⟩

/-- C6: `percent_change` formats a numeric value, multiplied by 100 unless
`multiply` is disabled, with `decimal_places` digits and a trailing `%`,
prefixed with `+` exactly when the post-multiply value is strictly
positive; in particular `percent_change(0.1)` is `"+10.0%"` and
`percent_change(-0.1)` is `"-10.0%"`; a non-numeric string returns
`"N/A"`. -/
theorem percent_change_spec :
    (∀ (v : PyVal) (q : Rat) (dp : Nat) (mult : Bool), pyFloat v = .ok q →
      percent_change v dp mult =
        .ok ((if 0 < (if mult then mul100 q else q) then "+" else "") ++
          formatFixed (if mult then mul100 q else q) dp ++ "%")) ∧
    percent_change (PyVal.float (mkRat 1 10)) 1 true = .ok "+10.0%" ∧
    percent_change (PyVal.float (mkRat (-1) 10)) 1 true = .ok "-10.0%" ∧
    (∀ s : String, parseFloat s = Option.none →
      percent_change (PyVal.str s) 1 true = .ok "N/A") := by
  refine ⟨?_, rfl, rfl, ?_⟩
  · intro v q dp mult h
    simp only [percent_change, h]
    simp only [_saferound, pyFloat]
    by_cases hp : 0 < (if mult then mul100 q else q).num
    · rw [if_pos hp, if_pos (Rat.num_pos.mp hp)]
    · rw [if_neg hp, if_neg (fun hq => hp (Rat.num_pos.mpr hq))]
      rfl
  · intro s h
    simp [percent_change, pyFloat, h]

/-- Witness for C6 at concrete inputs: `percent_change(2)` is `"+200.0%"`
and `percent_change("nope")` is `"N/A"`. -/
theorem percent_change_spec_witness :
    percent_change (PyVal.int 2) 1 true = .ok "+200.0%" ∧
    percent_change (PyVal.str "nope") 1 true = .ok "N/A" := by
  constructor
  · exact (percent_change_spec.1 (PyVal.int 2) (mkRat 2 1) 1 true rfl).trans rfl
  · exact percent_change_spec.2.2.2 "nope" rfl

/-- C7: for every integer `n ≥ 0`, `intcomma` of its decimal string is the
`group3` grouping with a comma every three digits from the right;
re-applying `intcomma` to its own output returns it unchanged; and on a
negative integer the minus sign is preserved and not counted as a digit
(the digits are grouped exactly as for the absolute value). -/
theorem intcomma_grouping_idempotent :
    (∀ n : Nat, intcomma (pyIntStr (Int.ofNat n)) = String.mk (group3 (natDigits n))) ∧
    (∀ n : Nat, intcomma (intcomma (pyIntStr (Int.ofNat n))) =
      intcomma (pyIntStr (Int.ofNat n))) ∧
    (∀ n : Nat, intcomma (pyIntStr (Int.negSucc n)) =
      String.mk ('-' :: group3 (natDigits (n + 1)))) := by
  have key : ∀ (b : Bool) (m : Nat),
      intcomma (String.mk (maybeSign b (natDigits m))) =
        String.mk (maybeSign b (group3 (natDigits m))) := by
    intro b m
    have h := intcomma_digits b (natDigits m) [] (natDigits_ne_nil m)
      (natDigits_digits m) trivial
    simpa using h
  have keyfix : ∀ m : Nat,
      intcomma (String.mk (maybeSign false (group3 (natDigits m)))) =
        String.mk (maybeSign false (group3 (natDigits m))) := by
    intro m
    have h := intcomma_group3_fix false (natDigits m) [] (natDigits_ne_nil m)
      (natDigits_digits m) trivial
    simpa using h
  refine ⟨fun n => ?_, fun n => ?_, fun n => ?_⟩
  · exact key false n
  · rw [show intcomma (pyIntStr (Int.ofNat n)) = String.mk (group3 (natDigits n))
      from key false n]
    exact keyfix n
  · exact key true (n + 1)

/-- C8: invoking the `Formatter` with a callable second argument calls it
directly on the value and the extra positional and keyword arguments,
returning its result, for every registry state (the registry is never
consulted). -/
theorem call_with_callable_direct :
    ∀ (fs : Filters) (v : PyVal) (g : PyFunc) (args : List PyVal)
      (kwargs : List (String × PyVal)),
      Formatter.call fs v (FuncArg.fn g) args kwargs = g.apply v args kwargs :=
  fun _ _ _ _ _ => rfl

/-- C9: `register("x")` with no function is not a no-op: it stores the
entry `None` under the key `"x"` (for any registry state), and a later
invocation of the name `"x"` fails with `TypeError` from calling the stored
`None` — not with the `KeyError` lookup error. -/
theorem register_name_only_stores_none :
    ∀ fs : Filters,
      Formatter.register fs (NameArg.str "x") Option.none (Key.str "x") =
        some Option.none ∧
      Formatter.call (Formatter.register fs (NameArg.str "x") Option.none)
        (PyVal.int 5) (FuncArg.name "x") [] [] = .error PyErr.typeError :=
  fun _ => ⟨rfl, rfl⟩

/-- C10: `bubble` is case-sensitive — every value other than exactly `"Y"`
or `"N"` (for any configured icons and placeholder) yields the placeholder,
including the lowercase `"y"` and `"n"` with the default arguments — while
`checkbox` and `tribubble` lowercase their input first, so they accept the
uppercase `"Y"` and `"N"`. -/
theorem bubble_case_sensitive :
    (∀ v yi ni e : String, v ≠ "Y" → v ≠ "N" → bubble v yi ni e = e) ∧
    bubble "y" bubbleYesDefault bubbleNoDefault mdash = mdash ∧
    bubble "n" bubbleYesDefault bubbleNoDefault mdash = mdash ∧
    checkbox "Y" checkboxYesDefault checkboxNoDefault = checkboxYesDefault ∧
    tribubble "N" tribubbleYesDefault tribubblePartlyDefault tribubbleNoDefault mdash =
      triImg tribubbleNoDefault := by
  refine ⟨?_, rfl, rfl, rfl, rfl⟩
  intro v yi ni e h1 h2
  simp [bubble, h1, h2]

/-- Witness for C10 at a concrete input: `bubble("Z")` with the default
arguments yields the em-dash placeholder. -/
theorem bubble_case_sensitive_witness :
    bubble "Z" bubbleYesDefault bubbleNoDefault mdash = mdash :=
  bubble_case_sensitive.1 "Z" bubbleYesDefault bubbleNoDefault mdash
    (by decide) (by decide)

end TableFu

